import Mathlib

/-!
Verification of the meld core against its specification.

The Rust sources are embedded shallowly: 32-byte hashes (`NodeID`, `FrameID`,
`Hash`, all `[u8; 32]` in `src/types.rs`) are modelled as their canonical byte
strings (`List Nat`), the cryptographic hash is idealized as injective, machine
integers are `Nat` (no arithmetic here ever nears an overflow boundary),
`HashMap`s are modelled by association lists or finitely-supported functions,
wall-clock `Instant`s by `Nat` tick counts, and fallible operations return
`Except ApiError`.  Each definition names the Rust item it embeds.
-/

namespace Meld

/-- Byte strings standing for the 32-byte content hashes of `src/types.rs`;
the hash function is idealized as the identity on canonical encodings, hence
injective. -/
abbrev Hash := List Nat

/-- NodeID from `src/types.rs` (an alias of `Hash`). -/
abbrev NodeID := Hash

/-- FrameID from `src/types.rs` (an alias of `Hash`). -/
abbrev FrameID := Hash

/-- Priority levels of `src/frame/queue.rs` (`enum Priority`). -/
inductive Priority where
  | low
  | normal
  | high
  | urgent
deriving DecidableEq, Repr

/-- Discriminant values of `enum Priority` (`Low = 0 .. Urgent = 3`). -/
def Priority.toNat : Priority → Nat
  | .low => 0
  | .normal => 1
  | .high => 2
  | .urgent => 3

/-- GenerationRequest from `src/frame/queue.rs`; `created_at: Instant` is
modelled as a `Nat` tick count. -/
structure GenerationRequest where
  node_id : NodeID
  agent_id : String
  frame_type : String
  priority : Priority
  retry_count : Nat
  created_at : Nat
deriving DecidableEq, Repr

/-- Ord for GenerationRequest (`src/frame/queue.rs` lines 57-71): by priority,
higher first; ties broken by `created_at` reversed, so that older requests
compare greater and pop first from the max-heap. -/
def GenerationRequest.cmp (a b : GenerationRequest) : Ordering :=
  match compare a.priority.toNat b.priority.toNat with
  | .eq => (compare a.created_at b.created_at).swap
  | o => o

/-- Pop sequences of the worker loop (`src/frame/queue.rs` lines 446-468):
`BinaryHeap::pop` removes a maximal element under `GenerationRequest.cmp`;
`PopSeq heap out` holds when `out` is a sequence of such pops that drains the
multiset `heap`. -/
inductive PopSeq : List GenerationRequest → List GenerationRequest → Prop where
  | nil : PopSeq [] []
  | cons (e : GenerationRequest) (heap out : List GenerationRequest) :
      e ∈ heap →
      (∀ x ∈ heap, GenerationRequest.cmp e x ≠ .lt) →
      PopSeq (heap.erase e) out →
      PopSeq heap (e :: out)

/-- Order the spec claims for popped requests: non-increasing priority, and
ascending `created_at` among requests of equal priority. -/
def popOrdered (a b : GenerationRequest) : Prop :=
  b.priority.toNat ≤ a.priority.toNat ∧
    (a.priority = b.priority → a.created_at ≤ b.created_at)

lemma cmp_not_lt_popOrdered (a b : GenerationRequest)
    (h : GenerationRequest.cmp a b ≠ .lt) : popOrdered a b := by
  unfold GenerationRequest.cmp at h
  rcases hp : compare a.priority.toNat b.priority.toNat with _ | _ | _
  · rw [hp] at h
    simp at h
  · rw [hp] at h
    have hpe : a.priority.toNat = b.priority.toNat := Nat.compare_eq_eq.mp hp
    refine ⟨le_of_eq hpe.symm, fun _ => ?_⟩
    rcases hc : compare a.created_at b.created_at with _ | _ | _
    · exact le_of_lt (Nat.compare_eq_lt.mp hc)
    · exact le_of_eq (Nat.compare_eq_eq.mp hc)
    · rw [hc] at h
      simp [Ordering.swap] at h
  · have := Nat.compare_eq_gt.mp hp
    exact ⟨le_of_lt this, fun he => by rw [he] at this; omega⟩

lemma popSeq_perm {heap out : List GenerationRequest} (h : PopSeq heap out) :
    out.Perm heap := by
  induction h with
  | nil => exact List.Perm.refl []
  | cons e heap out hmem _ _ ih =>
    exact (ih.cons e).trans (List.perm_cons_erase hmem).symm

lemma popSeq_pairwise {heap out : List GenerationRequest} (h : PopSeq heap out) :
    out.Pairwise popOrdered := by
  induction h with
  | nil => exact List.Pairwise.nil
  | cons e heap out _ hmax hrec ih =>
    refine List.pairwise_cons.mpr ⟨fun x hx => ?_, ih⟩
    have hxh : x ∈ heap :=
      List.erase_subset e heap ((popSeq_perm hrec).subset hx)
    exact cmp_not_lt_popOrdered e x (hmax x hxh)

/-- Requests of the literal scenario of §8 (priority ordering, end-to-end
scenario 4): Normal at t=0, Low at t=1, Urgent at t=2, Normal at t=3. -/
def reqNormal0 : GenerationRequest :=
  { node_id := [1], agent_id := "a", frame_type := "t",
    priority := .normal, retry_count := 0, created_at := 0 }

/-- Low-priority request enqueued at t=1. -/
def reqLow1 : GenerationRequest :=
  { node_id := [1], agent_id := "a", frame_type := "t",
    priority := .low, retry_count := 0, created_at := 1 }

/-- Urgent request enqueued at t=2. -/
def reqUrgent2 : GenerationRequest :=
  { node_id := [1], agent_id := "a", frame_type := "t",
    priority := .urgent, retry_count := 0, created_at := 2 }

/-- Normal-priority request enqueued at t=3. -/
def reqNormal3 : GenerationRequest :=
  { node_id := [1], agent_id := "a", frame_type := "t",
    priority := .normal, retry_count := 0, created_at := 3 }

/-- C1: successive pops from the generation queue come in non-increasing
priority order, ties in ascending `created_at` order (FIFO within a priority);
in particular enqueuing Normal at t=0, Low at t=1, Urgent at t=2 and Normal at
t=3 pops as Urgent(2), Normal(0), Normal(3), Low(1). -/
theorem queue_pop_priority_order :
    (∀ heap out : List GenerationRequest, PopSeq heap out →
      out.Pairwise popOrdered) ∧
    PopSeq [reqNormal0, reqLow1, reqUrgent2, reqNormal3]
      [reqUrgent2, reqNormal0, reqNormal3, reqLow1] := by
  constructor
  · exact fun heap out h => popSeq_pairwise h
  · have e1 : [reqNormal0, reqLow1, reqUrgent2, reqNormal3].erase reqUrgent2
        = [reqNormal0, reqLow1, reqNormal3] := by decide
    have e2 : [reqNormal0, reqLow1, reqNormal3].erase reqNormal0
        = [reqLow1, reqNormal3] := by decide
    have e3 : [reqLow1, reqNormal3].erase reqNormal3 = [reqLow1] := by decide
    have e4 : [reqLow1].erase reqLow1 = [] := by decide
    refine PopSeq.cons _ _ _ (by decide) (by decide) ?_
    rw [e1]
    refine PopSeq.cons _ _ _ (by decide) (by decide) ?_
    rw [e2]
    refine PopSeq.cons _ _ _ (by decide) (by decide) ?_
    rw [e3]
    refine PopSeq.cons _ _ _ (by decide) (by decide) ?_
    rw [e4]
    exact PopSeq.nil

/-- Modelled from the spec: the error taxonomy of §7 (`src/error.rs` is not
among the given files).  The variants the given sources construct
(`ConfigError`, `NodeNotFound`, `ProviderRequestFailed`, ...) keep their
source names. -/
inductive ApiError where
  | NodeNotFound (node_id : NodeID)
  | InvalidFrame (msg : String)
  | Unauthorized (msg : String)
  | ConfigError (msg : String)
  | ProviderNotConfigured (msg : String)
  | ProviderRateLimit (msg : String)
  | ProviderRequestFailed (msg : String)
  | ProviderError (msg : String)
  | GenerationFailed (msg : String)
  | QueueFull
  | Timeout (msg : String)
  | StorageError (msg : String)
deriving DecidableEq, Repr

/-- GenerationConfig from `src/frame/queue.rs` lines 80-96. -/
structure GenerationConfig where
  max_concurrent_per_agent : Nat
  batch_size : Nat
  max_retry_attempts : Nat
  retry_delay_ms : Nat
  rate_limit_ms : Option Nat
  max_queue_size : Nat
  workers_per_agent : Nat
deriving DecidableEq, Repr

/-- Default configuration (`impl Default for GenerationConfig`,
`src/frame/queue.rs` lines 98-110). -/
def defaultGenerationConfig : GenerationConfig :=
  { max_concurrent_per_agent := 3
    batch_size := 50
    max_retry_attempts := 3
    retry_delay_ms := 1000
    rate_limit_ms := some 100
    max_queue_size := 10000
    workers_per_agent := 2 }

/-- QueueStats from `src/frame/queue.rs` lines 113-123. -/
structure QueueStats where
  pending : Nat
  processing : Nat
  completed : Nat
  failed : Nat
deriving DecidableEq, Repr

/-- The all-zero statistics (`QueueStats::default()`). -/
def QueueStats.init : QueueStats :=
  { pending := 0, processing := 0, completed := 0, failed := 0 }

/-- State owned by `FrameGenerationQueue` that `enqueue`/`enqueue_batch`
mutate: the pending `BinaryHeap` (modelled as the multiset of its entries)
and the statistics. -/
structure QueueState where
  queue : List GenerationRequest
  stats : QueueStats
deriving DecidableEq, Repr

/-- Default frame type `format!("context-{}", agent_id)` used when the caller
passes no frame type (`src/frame/queue.rs` lines 242-243 and 298-300). -/
def defaultFrameType (agent_id : String) : String :=
  "context-" ++ agent_id

/-- Request construction of `enqueue` (`src/frame/queue.rs` lines 242-252):
frame type defaulted, `retry_count = 0`, `created_at = Instant::now()`. -/
def mkRequest (node_id : NodeID) (agent_id : String) (frame_type : Option String)
    (priority : Priority) (now : Nat) : GenerationRequest :=
  { node_id := node_id
    agent_id := agent_id
    frame_type := frame_type.getD (defaultFrameType agent_id)
    priority := priority
    retry_count := 0
    created_at := now }

/-- FrameGenerationQueue::enqueue (`src/frame/queue.rs` lines 221-275): on a
full queue it returns `ConfigError("Generation queue is full")` and leaves the
state alone; otherwise it pushes the request and bumps `stats.pending`. -/
def enqueue (cfg : GenerationConfig) (st : QueueState) (node_id : NodeID)
    (agent_id : String) (frame_type : Option String) (priority : Priority)
    (now : Nat) : Except ApiError Unit × QueueState :=
  if st.queue.length ≥ cfg.max_queue_size then
    (.error (.ConfigError "Generation queue is full"), st)
  else
    (.ok (),
      { queue := st.queue ++ [mkRequest node_id agent_id frame_type priority now]
        stats := { st.stats with pending := st.stats.pending + 1 } })

/-- FrameGenerationQueue::enqueue_batch (`src/frame/queue.rs` lines 278-332):
either the whole batch is admitted or, when it would overflow
`max_queue_size`, nothing is and an error is returned. -/
def enqueue_batch (cfg : GenerationConfig) (st : QueueState)
    (requests : List (NodeID × String × Option String × Priority))
    (now : Nat) : Except ApiError Unit × QueueState :=
  let batch_size := requests.length
  if st.queue.length + batch_size > cfg.max_queue_size then
    (.error (.ConfigError "Batch would exceed generation queue size limit"), st)
  else
    (.ok (),
      { queue := st.queue ++
          requests.map (fun r => mkRequest r.1 r.2.1 r.2.2.1 r.2.2.2 now)
        stats := { st.stats with pending := st.stats.pending + batch_size } })

/-- FrameGenerationQueue::is_retryable_error (`src/frame/queue.rs` lines
724-734). -/
def is_retryable_error : ApiError → Bool
  | .ConfigError _ => false
  | .ProviderNotConfigured _ => false
  | .ProviderRateLimit _ => true
  | .ProviderRequestFailed _ => true
  | .ProviderError _ => true
  | _ => true

/-- Re-enqueued request on a retryable failure (`request.retry_count += 1`
then push, `src/frame/queue.rs` lines 560-567): only `retry_count` changes. -/
def requeued (r : GenerationRequest) : GenerationRequest :=
  { r with retry_count := r.retry_count + 1 }

/-- Worker retry loop (`src/frame/queue.rs` lines 446-575) specialised to one
request whose processing always fails with error `e`: each cycle pops the
request (`pending - 1`, `processing + 1`, saturating as in the source) and
fails; if `retry_count < max_retry_attempts` and the error is retryable the
request is re-enqueued with `retry_count + 1`, else the failure is permanent
(`failed + 1`).  Returns the number of processing attempts and the final
statistics. -/
def retryLoopAlwaysFailing (cfg : GenerationConfig) (e : ApiError)
    (r : GenerationRequest) (stats : QueueStats) : Nat × QueueStats :=
  let stats1 : QueueStats :=
    { stats with pending := stats.pending - 1, processing := stats.processing + 1 }
  if h : r.retry_count < cfg.max_retry_attempts ∧ is_retryable_error e = true then
    let stats2 : QueueStats :=
      { stats1 with processing := stats1.processing - 1, pending := stats1.pending + 1 }
    let next := retryLoopAlwaysFailing cfg e (requeued r) stats2
    (next.1 + 1, next.2)
  else
    (1, { stats1 with processing := stats1.processing - 1, failed := stats1.failed + 1 })
termination_by cfg.max_retry_attempts - r.retry_count
decreasing_by simp [requeued]; omega

lemma retryLoopAlwaysFailing_spec (cfg : GenerationConfig) (e : ApiError)
    (r : GenerationRequest) (s : QueueStats)
    (hret : is_retryable_error e = true)
    (hle : r.retry_count ≤ cfg.max_retry_attempts) :
    (retryLoopAlwaysFailing cfg e r s).1
        = cfg.max_retry_attempts - r.retry_count + 1 ∧
      (retryLoopAlwaysFailing cfg e r s).2.failed = s.failed + 1 := by
  revert hle
  induction r, s using retryLoopAlwaysFailing.induct cfg e with
  | case1 r s stats1 h stats2 ih =>
    obtain ⟨hlt, hretb⟩ := h
    intro _
    have ih2 := ih (by simp [requeued]; omega)
    rw [retryLoopAlwaysFailing, dif_pos ⟨hlt, hretb⟩]
    simp only [stats2, stats1, requeued] at ih2 ⊢
    simp at ih2 ⊢
    omega
  | case2 r s h =>
    intro _
    rw [retryLoopAlwaysFailing, dif_neg h]
    have hge : ¬ r.retry_count < cfg.max_retry_attempts := by
      intro hc
      exact h ⟨hc, hret⟩
    exact ⟨by simp; omega, by simp⟩

/-- Request used in the literal retry-exhaustion scenario of §8. -/
def retryReq : GenerationRequest := mkRequest [1] "a" none .normal 0

/-- C5: a retryable failure below `max_retry_attempts` is re-enqueued with
`retry_count + 1` and its priority (and every other field) preserved; a
request whose provider call always fails retryably makes
`max_retry_attempts - retry_count + 1` attempts and then exactly one permanent
failure; with `max_retry_attempts = 2` that is 3 attempts and
`stats.failed = 1`. -/
theorem retry_policy_three_attempts_one_failure :
    (∀ r : GenerationRequest,
      (requeued r).priority = r.priority ∧
      (requeued r).retry_count = r.retry_count + 1 ∧
      (requeued r).node_id = r.node_id ∧
      (requeued r).agent_id = r.agent_id ∧
      (requeued r).frame_type = r.frame_type) ∧
    (∀ (cfg : GenerationConfig) (e : ApiError) (r : GenerationRequest)
        (s : QueueStats), is_retryable_error e = true →
      r.retry_count ≤ cfg.max_retry_attempts →
      (retryLoopAlwaysFailing cfg e r s).1
          = cfg.max_retry_attempts - r.retry_count + 1 ∧
        (retryLoopAlwaysFailing cfg e r s).2.failed = s.failed + 1) ∧
    ((retryLoopAlwaysFailing { defaultGenerationConfig with max_retry_attempts := 2 }
        (.ProviderRequestFailed "provider down") retryReq QueueStats.init).1 = 3 ∧
      (retryLoopAlwaysFailing { defaultGenerationConfig with max_retry_attempts := 2 }
        (.ProviderRequestFailed "provider down") retryReq QueueStats.init).2.failed = 1) := by
  refine ⟨fun r => ⟨rfl, rfl, rfl, rfl, rfl⟩,
    fun cfg e r s hret hle => retryLoopAlwaysFailing_spec cfg e r s hret hle, ?_⟩
  have h := retryLoopAlwaysFailing_spec
    { defaultGenerationConfig with max_retry_attempts := 2 }
    (.ProviderRequestFailed "provider down") retryReq QueueStats.init rfl
    (by simp [retryReq, mkRequest])
  simpa [retryReq, mkRequest, QueueStats.init] using h

/-- C3: enqueue_batch is all-or-nothing: an overflowing batch is rejected with
an error and the state (queue and statistics) is returned untouched; otherwise
every request of the batch is appended to the queue. -/
theorem enqueue_batch_all_or_nothing :
    (∀ (cfg : GenerationConfig) (st : QueueState)
        (reqs : List (NodeID × String × Option String × Priority)) (now : Nat),
      cfg.max_queue_size < st.queue.length + reqs.length →
      enqueue_batch cfg st reqs now
        = (.error (.ConfigError "Batch would exceed generation queue size limit"), st)) ∧
    (∀ (cfg : GenerationConfig) (st : QueueState)
        (reqs : List (NodeID × String × Option String × Priority)) (now : Nat),
      st.queue.length + reqs.length ≤ cfg.max_queue_size →
      (enqueue_batch cfg st reqs now).1 = .ok () ∧
        (enqueue_batch cfg st reqs now).2.queue
          = st.queue ++ reqs.map (fun r => mkRequest r.1 r.2.1 r.2.2.1 r.2.2.2 now) ∧
        (enqueue_batch cfg st reqs now).2.stats.pending
          = st.stats.pending + reqs.length) := by
  constructor
  · intro cfg st reqs now hover
    simp only [enqueue_batch]
    rw [if_pos (by omega)]
  · intro cfg st reqs now hfit
    simp only [enqueue_batch]
    rw [if_neg (by omega)]
    exact ⟨rfl, rfl, rfl⟩

/-- Configuration for the full-queue counterexample: capacity one. -/
def cfgCapOne : GenerationConfig :=
  { defaultGenerationConfig with max_queue_size := 1 }

/-- Queue state already holding one request, hence full under `cfgCapOne`. -/
def stFull : QueueState :=
  { queue := [reqNormal0]
    stats := { pending := 1, processing := 0, completed := 0, failed := 0 } }

/-- C4 counterexample: on a full queue, `enqueue` does reject the request and
leaves the state untouched, but the error it returns is
`ConfigError("Generation queue is full")`, not the `QueueFull` variant the
claim names. -/
theorem enqueue_full_error_is_ConfigError_not_QueueFull :
    (enqueue cfgCapOne stFull [2] "a" none .normal 5).1
        = .error (.ConfigError "Generation queue is full") ∧
      (enqueue cfgCapOne stFull [2] "a" none .normal 5).1 ≠ .error .QueueFull ∧
      (enqueue cfgCapOne stFull [2] "a" none .normal 5).2 = stFull := by
  have h1 : (enqueue cfgCapOne stFull [2] "a" none .normal 5).1
      = .error (.ConfigError "Generation queue is full") := rfl
  refine ⟨h1, ?_, rfl⟩
  rw [h1]
  intro h
  exact absurd (Except.error.inj h) (by decide)

/-- C4 amended: on a queue whose length has reached `max_queue_size`,
`enqueue` fails with `ConfigError("Generation queue is full")` and leaves the
queue contents and the statistics unchanged; below capacity it succeeds. -/
theorem enqueue_full_rejected_without_mutation :
    (∀ (cfg : GenerationConfig) (st : QueueState) (n : NodeID) (a : String)
        (ft : Option String) (p : Priority) (now : Nat),
      cfg.max_queue_size ≤ st.queue.length →
      enqueue cfg st n a ft p now
        = (.error (.ConfigError "Generation queue is full"), st)) ∧
    (∀ (cfg : GenerationConfig) (st : QueueState) (n : NodeID) (a : String)
        (ft : Option String) (p : Priority) (now : Nat),
      st.queue.length < cfg.max_queue_size →
      (enqueue cfg st n a ft p now).1 = .ok ()) := by
  constructor
  · intro cfg st n a ft p now hfull
    simp only [enqueue]
    rw [if_pos (by omega)]
  · intro cfg st n a ft p now hroom
    simp only [enqueue]
    rw [if_neg (by omega)]

/-- Frame-type resolution of the CLI generate path (`src/tooling/cli.rs`
lines 2015-2018): `frame_type.map(to_string).unwrap_or_else` falling back to
`format!("context-{}", agent_id)`. -/
def cliResolveFrameType (frame_type : Option String) (agent_id : String) : String :=
  frame_type.getD ("context-" ++ agent_id)

/-- C10: with `frame_type = None`, `enqueue` and `enqueue_batch` admit a
request whose frame type is exactly `"context-" ++ agent_id`, and the CLI
generate path resolves the same default. -/
theorem default_frame_type_is_context_agent :
    (∀ (n : NodeID) (a : String) (p : Priority) (now : Nat),
      (mkRequest n a none p now).frame_type = "context-" ++ a) ∧
    (∀ (cfg : GenerationConfig) (st : QueueState) (n : NodeID) (a : String)
        (p : Priority) (now : Nat),
      st.queue.length < cfg.max_queue_size →
      mkRequest n a none p now ∈ (enqueue cfg st n a none p now).2.queue) ∧
    (∀ (cfg : GenerationConfig) (st : QueueState)
        (reqs : List (NodeID × String × Option String × Priority))
        (n : NodeID) (a : String) (p : Priority) (now : Nat),
      st.queue.length + reqs.length ≤ cfg.max_queue_size →
      (n, a, none, p) ∈ reqs →
      mkRequest n a none p now ∈ (enqueue_batch cfg st reqs now).2.queue) ∧
    (∀ a : String, cliResolveFrameType none a = "context-" ++ a) := by
  refine ⟨fun n a p now => rfl, ?_, ?_, fun a => rfl⟩
  · intro cfg st n a p now hroom
    simp only [enqueue]
    rw [if_neg (by omega)]
    simp
  · intro cfg st reqs n a p now hfit hmem
    simp only [enqueue_batch]
    rw [if_neg (by omega)]
    simp only [List.mem_append, List.mem_map]
    exact Or.inr ⟨(n, a, none, p), hmem, rfl⟩

/-- BasisIndex of `src/regeneration.rs` lines 20-25.  The forward `HashMap`
`basis_hash → Vec<FrameID>` is modelled as a function with finite support
(an absent key reads as `[]`, exactly what `get_frames_by_basis` returns),
the reverse `HashMap` as `FrameID → Option Hash`. -/
structure BasisIndex where
  index : Hash → List FrameID
  reverse : FrameID → Option Hash

/-- BasisIndex::new (`src/regeneration.rs` lines 35-40). -/
def BasisIndex.empty : BasisIndex :=
  { index := fun _ => [], reverse := fun _ => none }

/-- BasisIndex::add_frame (`src/regeneration.rs` lines 45-51): push the
FrameID onto the forward entry and overwrite the reverse entry. -/
def BasisIndex.add_frame (b : BasisIndex) (basis_hash : Hash) (frame_id : FrameID) :
    BasisIndex :=
  { index := fun h =>
      if h = basis_hash then b.index basis_hash ++ [frame_id] else b.index h
    reverse := fun f => if f = frame_id then some basis_hash else b.reverse f }

/-- BasisIndex::remove_frame (`src/regeneration.rs` lines 57-66): look the
frame up in the reverse map; when present, drop it there and `retain` every
other FrameID in the forward entry (removing an emptied entry is invisible in
the functional model). -/
def BasisIndex.remove_frame (b : BasisIndex) (frame_id : FrameID) : BasisIndex :=
  match b.reverse frame_id with
  | none => b
  | some basis_hash =>
    { index := fun h =>
        if h = basis_hash
        then (b.index basis_hash).filter (fun id => id ≠ frame_id)
        else b.index h
      reverse := fun f => if f = frame_id then none else b.reverse f }

/-- BasisIndex::get_frames_by_basis (`src/regeneration.rs` lines 69-74). -/
def BasisIndex.get_frames_by_basis (b : BasisIndex) (basis_hash : Hash) :
    List FrameID :=
  b.index basis_hash

/-- BasisIndex::get_basis_for_frame (`src/regeneration.rs` lines 77-79). -/
def BasisIndex.get_basis_for_frame (b : BasisIndex) (frame_id : FrameID) :
    Option Hash :=
  b.reverse frame_id

/-- Mutations of the basis index named by the claim. -/
inductive BasisOp where
  | add (basis_hash : Hash) (frame_id : FrameID)
  | remove (frame_id : FrameID)

/-- Run one mutation. -/
def applyBasisOp (b : BasisIndex) : BasisOp → BasisIndex
  | .add h f => b.add_frame h f
  | .remove f => b.remove_frame f

/-- Run a sequence of mutations. -/
def applyBasisOps (b : BasisIndex) (ops : List BasisOp) : BasisIndex :=
  ops.foldl applyBasisOp b

/-- Mutual consistency of the forward and reverse maps: a FrameID sits in the
forward entry of a hash exactly when the reverse map sends it there. -/
def BasisConsistent (b : BasisIndex) : Prop :=
  ∀ f h, f ∈ b.index h ↔ b.reverse f = some h

/-- Sequences of mutations that never re-add a frame that is currently
tracked under a different basis hash (content-addressed frames are added at
most once, so real mutation sequences satisfy this). -/
inductive OkBasisOps : BasisIndex → List BasisOp → Prop where
  | nil (b : BasisIndex) : OkBasisOps b []
  | add (b : BasisIndex) (h : Hash) (f : FrameID) (ops : List BasisOp) :
      (b.reverse f = none ∨ b.reverse f = some h) →
      OkBasisOps (b.add_frame h f) ops →
      OkBasisOps b (.add h f :: ops)
  | remove (b : BasisIndex) (f : FrameID) (ops : List BasisOp) :
      OkBasisOps (b.remove_frame f) ops →
      OkBasisOps b (.remove f :: ops)

lemma basisConsistent_add (b : BasisIndex) (hc : BasisConsistent b)
    (h : Hash) (f : FrameID)
    (hok : b.reverse f = none ∨ b.reverse f = some h) :
    BasisConsistent (b.add_frame h f) := by
  intro g k
  simp only [BasisIndex.add_frame]
  by_cases hgf : g = f
  · subst hgf
    rw [if_pos rfl]
    by_cases hkh : k = h
    · subst hkh
      simp
    · rw [if_neg hkh]
      have hnm : g ∉ b.index k := by
        intro hmem
        have hrk := (hc g k).mp hmem
        rcases hok with h0 | h0
        · rw [h0] at hrk
          exact Option.noConfusion hrk
        · rw [h0] at hrk
          exact hkh (Option.some.inj hrk).symm
      constructor
      · exact fun hmem => absurd hmem hnm
      · intro he
        exact absurd (Option.some.inj he).symm hkh
  · rw [if_neg hgf]
    by_cases hkh : k = h
    · subst hkh
      rw [if_pos rfl]
      simp only [List.mem_append, List.mem_singleton, hgf, or_false]
      exact hc g k
    · rw [if_neg hkh]
      exact hc g k

lemma basisConsistent_remove (b : BasisIndex) (hc : BasisConsistent b)
    (f : FrameID) : BasisConsistent (b.remove_frame f) := by
  intro g k
  unfold BasisIndex.remove_frame
  cases hrev : b.reverse f with
  | none => exact hc g k
  | some bh =>
    simp only
    by_cases hgf : g = f
    · subst hgf
      rw [if_pos rfl]
      by_cases hkbh : k = bh
      · subst hkbh
        rw [if_pos rfl]
        simp [List.mem_filter]
      · rw [if_neg hkbh]
        constructor
        · intro hmem
          have hsk := (hc g k).mp hmem
          rw [hrev] at hsk
          exact absurd (Option.some.inj hsk).symm hkbh
        · intro he
          exact Option.noConfusion he
    · rw [if_neg hgf]
      by_cases hkbh : k = bh
      · subst hkbh
        rw [if_pos rfl]
        simp only [List.mem_filter, decide_eq_true_eq, ne_eq, hgf,
          not_false_iff, and_true]
        exact hc g k
      · rw [if_neg hkbh]
        exact hc g k

/-- C9 amended: after every sequence of `add_frame`/`remove_frame` mutations
in which a frame is only added while untracked or tracked under the same
basis hash, the forward and reverse maps stay mutually consistent.  (Re-adding
a tracked frame under a different hash breaks the invariant, see the
counterexample.) -/
theorem basis_index_consistency_preserved
    (ops : List BasisOp) (b : BasisIndex)
    (hc : BasisConsistent b) (hok : OkBasisOps b ops) :
    BasisConsistent (applyBasisOps b ops) := by
  revert hc
  induction hok with
  | nil b =>
    intro hc
    exact hc
  | add b h f ops hpre _ ih =>
    intro hc
    exact ih (basisConsistent_add b hc h f hpre)
  | remove b f ops _ ih =>
    intro hc
    exact ih (basisConsistent_remove b hc f)

/-- Witness for C9: the preserved invariant, instantiated on a one-element
mutation sequence over the empty index and read back at the inserted pair. -/
theorem basis_index_consistency_preserved_witness :
    [5] ∈ (applyBasisOps BasisIndex.empty [.add [1] [5]]).index [1] ↔
      (applyBasisOps BasisIndex.empty [.add [1] [5]]).reverse [5] = some [1] :=
  basis_index_consistency_preserved [.add [1] [5]] BasisIndex.empty
    (fun f h => by simp [BasisIndex.empty])
    (OkBasisOps.add _ _ _ _ (Or.inl rfl) (OkBasisOps.nil _)) [5] [1]

/-- Mutation sequence that adds the same FrameID under two distinct basis
hashes. -/
def doubleAddOps : List BasisOp := [.add [1] [5], .add [2] [5]]

/-- C9 counterexample: after `add_frame([1],[5]); add_frame([2],[5])` the
frame `[5]` still sits in the forward entry of hash `[1]`, while the reverse
map sends it to `[2]`: the maps are not mutually consistent after this
sequence of mutations. -/
theorem basis_index_inconsistent_after_double_add :
    [5] ∈ (applyBasisOps BasisIndex.empty doubleAddOps).index [1] ∧
      (applyBasisOps BasisIndex.empty doubleAddOps).reverse [5] = some [2] ∧
      ¬ ([5] ∈ (applyBasisOps BasisIndex.empty doubleAddOps).index [1] ↔
          (applyBasisOps BasisIndex.empty doubleAddOps).reverse [5] = some [1]) := by
  decide

/-- Metadata maps (`HashMap<String, String>`) modelled as association lists
with insert-replaces semantics. -/
abbrev Metadata := List (String × String)

/-- Lookup in a metadata map (`HashMap::get`). -/
def mGet (m : Metadata) (k : String) : Option String :=
  m.lookup k

/-- Insert in a metadata map (`HashMap::insert`: replaces any previous
binding). -/
def mInsert (m : Metadata) (k v : String) : Metadata :=
  (k, v) :: m.filter (fun e => e.1 ≠ k)

/-- Basis from `src/frame/mod.rs` lines 21-26. -/
inductive Basis where
  | Node (node_id : NodeID)
  | Frame (frame_id : FrameID)
  | Both (node : NodeID) (frame : FrameID)
deriving DecidableEq, Repr

/-- SynthesisPolicy of the synthesizer (§4.G; `src/synthesis.rs` is not among
the given files): `Concatenation` is implemented, `Summarization` reserved. -/
inductive SynthesisPolicy where
  | Concatenation
  | Summarization
deriving DecidableEq, Repr

/-- Bytes of a UTF-8 string, as they enter hash computations. -/
def strBytes (s : String) : List Nat :=
  s.data.map Char.toNat

/-- Length-prefixed encoding of a byte string (§4.A: all canonical encodings
are length-prefixed, which makes them injective). -/
def lenPre (l : List Nat) : List Nat :=
  l.length :: l

/-- Modelled from the spec: canonical basis encoding of §4.A.1 (tag byte plus
component hashes in a fixed order; `src/frame/id.rs` is not among the given
files). -/
def canonicalBasis : Basis → List Nat
  | .Node n => 0 :: lenPre n
  | .Frame f => 1 :: lenPre f
  | .Both n f => 2 :: lenPre n ++ lenPre f

/-- Modelled from the spec: `compute_frame_id` of §4.A.1 (`src/frame/id.rs`
is not among the given files): H over the canonical basis and length-prefixed
content, frame type and agent id; the hash is idealized as the tagged
canonical encoding itself, hence injective and total. -/
def compute_frame_id (basis : Basis) (content : List Nat)
    (frame_type agent_id : String) : FrameID :=
  100 :: lenPre (canonicalBasis basis) ++ lenPre content ++
    lenPre (strBytes frame_type) ++ lenPre (strBytes agent_id)

/-- Modelled from the spec: `compute_basis_hash` of §4.A.2 (`src/frame/id.rs`
is not among the given files). -/
def compute_basis_hash (basis : Basis) : Hash :=
  101 :: canonicalBasis basis

/-- Tag byte of a synthesis policy in the synthesis basis hash (§4.A.3). -/
def policyTag : SynthesisPolicy → Nat
  | .Concatenation => 0
  | .Summarization => 1

/-- SynthesisBasis of `src/synthesis.rs` as used by `src/regeneration.rs`
lines 198-204 and 357-364 (the file itself is not among the given ones). -/
structure SynthesisBasis where
  node_id : NodeID
  child_frame_ids : List FrameID
  frame_type : String
  synthesis_policy : SynthesisPolicy
deriving DecidableEq, Repr

/-- Modelled from the spec: `compute_synthesis_basis_hash` of §4.A.3 — H of
`node_id ‖ concat(child_frame_ids) ‖ frame_type ‖ policy_tag` — with the same
injective idealization of H. -/
def SynthesisBasis.compute_hash (b : SynthesisBasis) : Hash :=
  102 :: lenPre b.node_id ++
    (b.child_frame_ids.length :: b.child_frame_ids.flatMap lenPre) ++
    lenPre (strBytes b.frame_type) ++ [policyTag b.synthesis_policy]

/-- Frame from `src/frame/mod.rs` lines 29-37; the wall-clock `timestamp`
field (never read by the embedded operations) is dropped. -/
structure Frame where
  frame_id : FrameID
  basis : Basis
  content : List Nat
  frame_type : String
  metadata : Metadata
deriving DecidableEq, Repr

/-- Frame::new (`src/frame/mod.rs` lines 45-66): force `agent_id` into the
metadata and compute the FrameID over basis, content, frame type and agent
id.  The source returns `Result` only because `compute_frame_id` formally
can; per §4.A it is total. -/
def Frame.new (basis : Basis) (content : List Nat) (frame_type agent_id : String)
    (metadata : Metadata) : Frame :=
  { frame_id := compute_frame_id basis content frame_type agent_id
    basis := basis
    content := content
    frame_type := frame_type
    metadata := mInsert metadata "agent_id" agent_id }

/-- Hex rendering of a basis hash stored in frame metadata
(`src/regeneration.rs` line 379).  With the idealized variable-length hashes
the rendering is modelled as the char-per-byte string; it stays injective on
the hashes this model produces. -/
def hashToHex (h : Hash) : String :=
  ⟨h.map Char.ofNat⟩

/-- Decoding of a stored basis-hash string (`hex_string_to_hash`,
`src/regeneration.rs` lines 231-248).  The source rejects strings that are
not 64 hex chars and the caller then skips the frame; under the idealized
encoding decoding is total, and the malformed-input path is unreachable for
states this model builds. -/
def hex_string_to_hash (s : String) : Hash :=
  s.data.map Char.toNat

/-- NodeType from `src/store/mod.rs` lines 15-19. -/
inductive NodeType where
  | File (size : Nat) (content_hash : Hash)
  | Directory
deriving DecidableEq, Repr

/-- NodeRecord from `src/store/mod.rs` lines 21-31. -/
structure NodeRecord where
  node_id : NodeID
  path : String
  node_type : NodeType
  children : List NodeID
  parent : Option NodeID
  frame_set_root : Option Hash
  metadata : Metadata
deriving DecidableEq, Repr

/-- Read side of the NodeRecordStore trait (`src/store/mod.rs` lines 34-37);
sled I/O errors are out of scope, so `get` is a pure partial map. -/
abbrev NodeStore := NodeID → Option NodeRecord

/-- HeadIndex from `src/heads.rs`: the `(NodeID, frame_type) → FrameID`
HashMap as an association list (insert replaces). -/
structure HeadIndex where
  heads : List ((NodeID × String) × FrameID)
deriving DecidableEq, Repr

/-- HeadIndex::get_head (`src/heads.rs`): total in the source apart from the
unused `Result` wrapper. -/
def HeadIndex.get_head (hi : HeadIndex) (node_id : NodeID) (frame_type : String) :
    Option FrameID :=
  hi.heads.lookup (node_id, frame_type)

/-- HeadIndex::update_head (`src/heads.rs`): HashMap insert. -/
def HeadIndex.update_head (hi : HeadIndex) (node_id : NodeID) (frame_type : String)
    (frame_id : FrameID) : HeadIndex :=
  ⟨((node_id, frame_type), frame_id) ::
    hi.heads.filter (fun e => e.1 ≠ (node_id, frame_type))⟩

/-- HeadIndex::get_all_heads_for_node (`src/heads.rs`). -/
def HeadIndex.get_all_heads_for_node (hi : HeadIndex) (node_id : NodeID) :
    List FrameID :=
  (hi.heads.filter (fun e => e.1.1 = node_id)).map (fun e => e.2)

/-- Modelled from the spec: frame storage of §4.C (`src/frame/storage.rs` is
not among the given files): a content-addressed blob store whose writes are
idempotent. -/
structure FrameStorage where
  frames : List (FrameID × Frame)
deriving DecidableEq, Repr

/-- FrameStorage::get. -/
def FrameStorage.get (fs : FrameStorage) (frame_id : FrameID) : Option Frame :=
  fs.frames.lookup frame_id

/-- FrameStorage::store — idempotent per §4.C: re-storing a stored FrameID is
a no-op. -/
def FrameStorage.store (fs : FrameStorage) (f : Frame) : FrameStorage :=
  if (fs.get f.frame_id).isSome then fs else ⟨(f.frame_id, f) :: fs.frames⟩

/-- Lexicographic comparison of byte strings, as `Ord` on `[u8; 32]` /
`Vec<u8>` compares in Rust. -/
def cmpBytes : List Nat → List Nat → Ordering
  | [], [] => .eq
  | [], _ :: _ => .lt
  | _ :: _, [] => .gt
  | x :: xs, y :: ys =>
    match compare x y with
    | .eq => cmpBytes xs ys
    | o => o

/-- Child-frame ordering of §4.G and of the sort in `src/regeneration.rs`
lines 177-181: by `(child_node_id, child_frame_id)` lexicographically. -/
def childLe (x y : NodeID × Frame) : Bool :=
  match cmpBytes x.1 y.1 with
  | .lt => true
  | .gt => false
  | .eq =>
    match cmpBytes x.2.frame_id y.2.frame_id with
    | .gt => false
    | _ => true

/-- Insertion step of the deterministic child sort. -/
def insertChild (x : NodeID × Frame) : List (NodeID × Frame) → List (NodeID × Frame)
  | [] => [x]
  | y :: ys => if childLe x y then x :: y :: ys else y :: insertChild x ys

/-- Deterministic sort of child frames (a stable sort under `childLe`, the
total ordering §4.G requires and `src/regeneration.rs` lines 177-181 apply). -/
def sortChildren (l : List (NodeID × Frame)) : List (NodeID × Frame) :=
  l.foldr insertChild []

/-- Modelled from the spec: `collect_child_frames` of `src/synthesis.rs` (not
among the given files), which §4.G and the inline copy in
`detect_basis_changes` (`src/regeneration.rs` lines 162-181) specify: the
current head frame of each child of the node for the frame type, ordered by
`(child_node_id, child_frame_id)`; children without a head or with a dangling
head are skipped. -/
def collect_child_frames (ns : NodeStore) (fs : FrameStorage) (hi : HeadIndex)
    (node_id : NodeID) (frame_type : String) :
    Except ApiError (List (NodeID × Frame)) :=
  match ns node_id with
  | none => .error (.NodeNotFound node_id)
  | some record =>
    let pairs := record.children.filterMap (fun child =>
      match hi.get_head child frame_type with
      | some fid => (fs.get fid).map (fun fr => (child, fr))
      | none => none)
    .ok (sortChildren pairs)

/-- Modelled from the spec: `synthesize_content` of `src/synthesis.rs` (not
among the given files); §4.G: concatenate the child contents with a fixed
separator.  `Summarization` is reserved and modelled identically. -/
def synthesize_content (child_frames : List (NodeID × Frame))
    (_policy : SynthesisPolicy) : List Nat :=
  ((child_frames.map (fun cf => cf.2.content)).intersperse [10, 10]).flatten

/-- Policy parsing in `detect_basis_changes` (`src/regeneration.rs` lines
184-194): both capitalisations accepted, anything else defaults to
concatenation. -/
def parsePolicyDetect (s : Option String) : SynthesisPolicy :=
  match s with
  | some str =>
    if str = "concatenation" ∨ str = "Concatenation" then .Concatenation
    else if str = "summarization" ∨ str = "Summarization" then .Summarization
    else .Concatenation
  | none => .Concatenation

/-- Policy parsing in `regenerate_node` (`src/regeneration.rs` lines
339-351): lowercase spellings only, anything else defaults to
concatenation. -/
def parsePolicyRegen (s : Option String) : SynthesisPolicy :=
  match s with
  | some str =>
    if str = "concatenation" then .Concatenation
    else if str = "summarization" then .Summarization
    else .Concatenation
  | none => .Concatenation

/-- Debug rendering `format!("{:?}", policy)` written back into metadata
(`src/regeneration.rs` line 378). -/
def policyDebugStr : SynthesisPolicy → String
  | .Concatenation => "Concatenation"
  | .Summarization => "Summarization"

/-- Change detection for one frame type (`detect_basis_changes`,
`src/regeneration.rs` lines 132-225): a synthesized head (metadata carries
`basis_hash`) is stale when the stored hash differs from the recomputed
synthesis basis hash over the current child heads; an authored head is stale
when the basis index entry differs from the recomputed basis hash; missing
heads, dangling frames and unindexed frames are skipped. -/
def detect_basis_change_for_type (node_id : NodeID) (frame_type : String)
    (basis_index : BasisIndex) (head_index : HeadIndex) (fs : FrameStorage)
    (ns : NodeStore) : Except ApiError Bool :=
  match head_index.get_head node_id frame_type with
  | none => .ok false
  | some head_frame_id =>
    match fs.get head_frame_id with
    | none => .ok false
    | some frame =>
      match mGet frame.metadata "basis_hash" with
      | some stored_str =>
        let stored_basis_hash := hex_string_to_hash stored_str
        match collect_child_frames ns fs head_index node_id frame_type with
        | .error e => .error e
        | .ok child_frames =>
          let policy := parsePolicyDetect (mGet frame.metadata "synthesis_policy")
          let child_frame_ids := child_frames.map (fun cf => cf.2.frame_id)
          let current := SynthesisBasis.compute_hash
            ⟨node_id, child_frame_ids, frame_type, policy⟩
          .ok (stored_basis_hash ≠ current)
      | none =>
        match basis_index.get_basis_for_frame head_frame_id with
        | none => .ok false
        | some stored => .ok (stored ≠ compute_basis_hash frame.basis)

/-- detect_basis_changes (`src/regeneration.rs` lines 122-228): the frame
types whose basis changed, in input order; a store error aborts. -/
def detect_basis_changes (node_id : NodeID) (frame_types : List String)
    (basis_index : BasisIndex) (head_index : HeadIndex) (fs : FrameStorage)
    (ns : NodeStore) : Except ApiError (List String) :=
  frame_types.foldlM (fun acc ft => do
    let changed ← detect_basis_change_for_type node_id ft basis_index head_index fs ns
    pure (if changed then acc ++ [ft] else acc)) []

/-- RegenerationReport from `src/regeneration.rs` lines 105-115; the
wall-clock `duration_ms` field is dropped. -/
structure RegenerationReport where
  node_id : NodeID
  regenerated_count : Nat
  frame_ids : List FrameID
deriving DecidableEq, Repr

/-- Frame built when a stale synthesized head is re-synthesized
(`regenerate_node`, `src/regeneration.rs` lines 315-397).  No child head
frames: the fixed sentinel content `"Empty directory"` with basis
`Node(parent)` and the head metadata with `synthesis_policy` set (the stored
`basis_hash` is carried over unchanged).  Otherwise: content synthesized from
the children; basis `Frame(child)` for exactly one child, `Node(parent)`
otherwise; metadata updated with the policy, the new hex `basis_hash` and
`child_frame_count`. -/
def resynthesizeFrame (node_id : NodeID) (frame_type agent_id : String)
    (head_frame : Frame) (child_frames : List (NodeID × Frame)) : Frame :=
  if child_frames.isEmpty then
    Frame.new (Basis.Node node_id) (strBytes "Empty directory") frame_type agent_id
      (mInsert head_frame.metadata "synthesis_policy" "concatenation")
  else
    let policy := parsePolicyRegen (mGet head_frame.metadata "synthesis_policy")
    let child_frame_ids := child_frames.map (fun cf => cf.2.frame_id)
    let basis_hash := SynthesisBasis.compute_hash
      ⟨node_id, child_frame_ids, frame_type, policy⟩
    let synthesized_content := synthesize_content child_frames policy
    let basis :=
      match child_frame_ids with
      | [cid] => Basis.Frame cid
      | _ => Basis.Node node_id
    let metadata :=
      mInsert
        (mInsert
          (mInsert head_frame.metadata "synthesis_policy" (policyDebugStr policy))
          "basis_hash" (hashToHex basis_hash))
        "child_frame_count" (toString child_frame_ids.length)
    Frame.new basis synthesized_content frame_type agent_id metadata

/-- Regeneration of one changed frame type (`regenerate_node`,
`src/regeneration.rs` lines 292-418): a synthesized head (metadata carries
`basis_hash`) is re-synthesized — store the new frame, extend the basis
index, move the head; an authored head is never auto-regenerated (lines
399-417 `continue` on both paths); missing heads and dangling frames are
skipped. -/
def regenerateType (node_id : NodeID) (frame_type agent_id : String)
    (bi : BasisIndex) (hi : HeadIndex) (fs : FrameStorage) (ns : NodeStore) :
    Except ApiError (Option FrameID × BasisIndex × HeadIndex × FrameStorage) :=
  match hi.get_head node_id frame_type with
  | none => .ok (none, bi, hi, fs)
  | some head_frame_id =>
    match fs.get head_frame_id with
    | none => .ok (none, bi, hi, fs)
    | some head_frame =>
      if (mGet head_frame.metadata "basis_hash").isSome then
        match collect_child_frames ns fs hi node_id frame_type with
        | .error e => .error e
        | .ok child_frames =>
          let new_frame := resynthesizeFrame node_id frame_type agent_id
            head_frame child_frames
          let fs2 := fs.store new_frame
          let bi2 := bi.add_frame (compute_basis_hash new_frame.basis)
            new_frame.frame_id
          let hi2 := hi.update_head node_id frame_type new_frame.frame_id
          .ok (some new_frame.frame_id, bi2, hi2, fs2)
      else
        .ok (none, bi, hi, fs)

/-- Frame types of a node's heads (`regenerate_node`, `src/regeneration.rs`
lines 266-277): the `frame_type` of every resolvable head frame, first
occurrence kept. -/
def headFrameTypes (hi : HeadIndex) (fs : FrameStorage) (node_id : NodeID) :
    List String :=
  (hi.get_all_heads_for_node node_id).foldl (fun acc fid =>
    match fs.get fid with
    | some frame => if frame.frame_type ∈ acc then acc else acc ++ [frame.frame_type]
    | none => acc) []

/-- Non-recursive part of `regenerate_node` (`src/regeneration.rs` lines
263-418): detect the changed frame types of the node, then regenerate each in
order, threading the indices and the storage. -/
def regenerateOwn (node_id : NodeID) (agent_id : String) (bi : BasisIndex)
    (hi : HeadIndex) (fs : FrameStorage) (ns : NodeStore) :
    Except ApiError (List FrameID × BasisIndex × HeadIndex × FrameStorage) :=
  let frame_types := headFrameTypes hi fs node_id
  match detect_basis_changes node_id frame_types bi hi fs ns with
  | .error e => .error e
  | .ok changed_types =>
    changed_types.foldlM (fun acc ft => do
      let (newId, bi2, hi2, fs2) ←
        regenerateType node_id ft agent_id acc.2.1 acc.2.2.1 acc.2.2.2 ns
      pure (match newId with
        | some fid => acc.1 ++ [fid]
        | none => acc.1, bi2, hi2, fs2)) ([], bi, hi, fs)

/-- Child traversal of the recursive branch (`src/regeneration.rs` lines
421-440): regenerate each child in order with `recursive = true`, threading
the state and appending each child report's frame ids. -/
def foldRegen
    (regen : NodeID → BasisIndex → HeadIndex → FrameStorage →
      Except ApiError (RegenerationReport × BasisIndex × HeadIndex × FrameStorage)) :
    List NodeID → BasisIndex → HeadIndex → FrameStorage →
      Except ApiError (List FrameID × BasisIndex × HeadIndex × FrameStorage)
  | [], bi, hi, fs => .ok ([], bi, hi, fs)
  | c :: rest, bi, hi, fs =>
    match regen c bi hi fs with
    | .error e => .error e
    | .ok (report, bi1, hi1, fs1) =>
      match foldRegen regen rest bi1 hi1 fs1 with
      | .error e => .error e
      | .ok (ids, bi2, hi2, fs2) => .ok (report.frame_ids ++ ids, bi2, hi2, fs2)

/-- regenerate_node (`src/regeneration.rs` lines 254-450): regenerate the
node's own stale synthesized heads first, then — when `recursive` — every
child subtree, threading basis index, head index and frame storage.  The Rust
recursion is bounded by the store's tree height; `fuel` makes that bound
explicit. -/
def regenerate_node : Nat → NodeID → Bool → BasisIndex → HeadIndex →
    FrameStorage → NodeStore → String →
    Except ApiError (RegenerationReport × BasisIndex × HeadIndex × FrameStorage)
  | 0, _, _, _, _, _, _, _ => .error (.StorageError "recursion depth exhausted")
  | fuel + 1, node_id, recursive, bi, hi, fs, ns, agent_id =>
    match regenerateOwn node_id agent_id bi hi fs ns with
    | .error e => .error e
    | .ok (own_ids, bi1, hi1, fs1) =>
      if recursive then
        match ns node_id with
        | none => .error (.NodeNotFound node_id)
        | some record =>
          match foldRegen
              (fun c b h f => regenerate_node fuel c true b h f ns agent_id)
              record.children bi1 hi1 fs1 with
          | .error e => .error e
          | .ok (child_ids, bi2, hi2, fs2) =>
            .ok (⟨node_id, (own_ids ++ child_ids).length, own_ids ++ child_ids⟩,
              bi2, hi2, fs2)
      else
        .ok (⟨node_id, own_ids.length, own_ids⟩, bi1, hi1, fs1)

/-- C7: a frame produced by re-synthesis has basis `Frame(child_frame_id)`
when there is exactly one child head frame and `Node(parent_node_id)`
otherwise; with zero child head frames its content is the sentinel bytes
`"Empty directory"` and its basis is `Node(parent_node_id)`. -/
theorem resynthesis_basis_and_empty_sentinel :
    (∀ (n : NodeID) (ft a : String) (hf : Frame) (c : NodeID) (f : Frame),
      (resynthesizeFrame n ft a hf [(c, f)]).basis = Basis.Frame f.frame_id) ∧
    (∀ (n : NodeID) (ft a : String) (hf : Frame)
        (cfs : List (NodeID × Frame)), cfs.length ≠ 1 →
      (resynthesizeFrame n ft a hf cfs).basis = Basis.Node n) ∧
    (∀ (n : NodeID) (ft a : String) (hf : Frame),
      (resynthesizeFrame n ft a hf []).content = strBytes "Empty directory" ∧
        (resynthesizeFrame n ft a hf []).basis = Basis.Node n) := by
  refine ⟨fun n ft a hf c f => rfl, ?_, fun n ft a hf => ⟨rfl, rfl⟩⟩
  intro n ft a hf cfs hlen
  match cfs with
  | [] => rfl
  | [x] => exact absurd rfl hlen
  | x :: y :: rest => rfl

/-- Child file record of the C2 scenario: no head frame of type `"t"`. -/
def c2Child : NodeRecord :=
  { node_id := [2], path := "/d/child.txt", node_type := .File 100 [0],
    children := [], parent := some [1], frame_set_root := none, metadata := [] }

/-- Directory record of the C2 scenario with the child `[2]`. -/
def c2Dir : NodeRecord :=
  { node_id := [1], path := "/d", node_type := .Directory,
    children := [[2]], parent := none, frame_set_root := none, metadata := [] }

/-- Node store of the C2 scenario. -/
def c2Ns : NodeStore := fun n =>
  if n = [1] then some c2Dir else if n = [2] then some c2Child else none

/-- Synthesized head of the directory whose stored `basis_hash` (the stale
`[9, 9]`) no longer matches the synthesis basis over the current (empty) set
of child head frames. -/
def c2HeadFrame : Frame :=
  Frame.new (Basis.Node [1]) (strBytes "old") "t" "a"
    [("basis_hash", hashToHex [9, 9]), ("synthesis_policy", "concatenation")]

/-- Head index of the C2 scenario. -/
def c2Hi : HeadIndex := ⟨[(([1], "t"), c2HeadFrame.frame_id)]⟩

/-- Frame storage of the C2 scenario. -/
def c2Fs : FrameStorage := ⟨[(c2HeadFrame.frame_id, c2HeadFrame)]⟩

/-- First regeneration run of the C2 scenario. -/
def c2Run1 := regenerate_node 1 [1] false BasisIndex.empty c2Hi c2Fs c2Ns "a"

/-- Second, immediate regeneration run on the state the first one left. -/
def c2Run2 := c2Run1.toOption.bind fun r =>
  (regenerate_node 1 [1] false r.2.1 r.2.2.1 r.2.2.2 c2Ns "a").toOption

/-- C2 failing input: the empty-directory branch of `regenerate_node` clones
the old metadata without refreshing `basis_hash` (`src/regeneration.rs` lines
315-337), so the head stays stale and the immediately repeated run
regenerates again: both runs report `regenerated_count = 1`, where the claim
requires 0 on the second. -/
theorem regenerate_empty_directory_second_run_not_zero :
    (c2Run1.toOption.map fun r => r.1.regenerated_count) = some 1 ∧
      (c2Run2.map fun r => r.1.regenerated_count) = some 1 := by
  exact ⟨rfl, rfl⟩

/-- Child directory record of the C6 scenario. -/
def c6ChildRec : NodeRecord :=
  { node_id := [2], path := "/p/c", node_type := .Directory, children := [],
    parent := some [1], frame_set_root := none, metadata := [] }

/-- Parent directory record of the C6 scenario. -/
def c6ParentRec : NodeRecord :=
  { node_id := [1], path := "/p", node_type := .Directory, children := [[2]],
    parent := none, frame_set_root := none, metadata := [] }

/-- Node store of the C6 scenario. -/
def c6Ns : NodeStore := fun n =>
  if n = [1] then some c6ParentRec else if n = [2] then some c6ChildRec else none

/-- Stale synthesized head of the child `[2]`, content `"old-c"`. -/
def c6ChildOld : Frame :=
  Frame.new (Basis.Node [2]) (strBytes "old-c") "t" "a"
    [("basis_hash", hashToHex [7, 7]), ("synthesis_policy", "concatenation")]

/-- Stale synthesized head of the parent `[1]`. -/
def c6ParentOld : Frame :=
  Frame.new (Basis.Node [1]) (strBytes "old-p") "t" "a"
    [("basis_hash", hashToHex [8, 8]), ("synthesis_policy", "concatenation")]

/-- Head index of the C6 scenario. -/
def c6Hi : HeadIndex :=
  ⟨[(([1], "t"), c6ParentOld.frame_id), (([2], "t"), c6ChildOld.frame_id)]⟩

/-- Frame storage of the C6 scenario. -/
def c6Fs : FrameStorage :=
  ⟨[(c6ParentOld.frame_id, c6ParentOld), (c6ChildOld.frame_id, c6ChildOld)]⟩

/-- Recursive regeneration run of the C6 scenario. -/
def c6Run := regenerate_node 2 [1] true BasisIndex.empty c6Hi c6Fs c6Ns "a"

/-- FrameID the parent's re-synthesis produces: derived from the child's OLD
head frame. -/
def c6ParentNewId : FrameID :=
  compute_frame_id (Basis.Frame c6ChildOld.frame_id) (strBytes "old-c") "t" "a"

/-- FrameID the child's regeneration produces (the empty-directory
sentinel). -/
def c6ChildNewId : FrameID :=
  compute_frame_id (Basis.Node [2]) (strBytes "Empty directory") "t" "a"

/-- C6 counterexample: with `recursive = true`, `regenerate_node` regenerates
the parent BEFORE its child — the report lists the parent's new frame first —
and the parent's re-synthesis reads the child head from before the child's
regeneration: the new parent frame's content is the old child content
`"old-c"`, not a synthesis of the updated child head (`"Empty directory"`). -/
theorem regenerate_recursive_parent_reads_stale_child_head :
    (c6Run.toOption.map fun r => r.1.frame_ids)
        = some [c6ParentNewId, c6ChildNewId] ∧
      ((c6Run.toOption.bind fun r => r.2.2.2.get c6ParentNewId).map fun f => f.content)
        = some (strBytes "old-c") ∧
      ((c6Run.toOption.bind fun r => r.2.2.2.get c6ChildNewId).map fun f => f.content)
        = some (strBytes "Empty directory") ∧
      strBytes "old-c" ≠ strBytes "Empty directory" := by
  refine ⟨rfl, rfl, rfl, by decide⟩

/-- C6 amended: `regenerate_node` with `recursive = true` is a PRE-order
traversal: the node's own stale synthesized heads are re-synthesized first,
against the child heads as they are on entry, and only then is each child
regenerated recursively on the state the parent left; the node's own new
frame ids precede every frame id regenerated below its children. -/
theorem regenerate_recursive_preorder :
    ∀ (fuel : Nat) (node_id : NodeID) (bi : BasisIndex) (hi : HeadIndex)
      (fs : FrameStorage) (ns : NodeStore) (agent_id : String),
      ((regenerate_node (fuel + 1) node_id true bi hi fs ns agent_id).toOption.map
          fun r => r.1.frame_ids)
        = ((regenerateOwn node_id agent_id bi hi fs ns).toOption.bind fun own =>
            (ns node_id).bind fun record =>
              (foldRegen
                  (fun c b h f => regenerate_node fuel c true b h f ns agent_id)
                  record.children own.2.1 own.2.2.1 own.2.2.2).toOption.map
                fun child => own.1 ++ child.1) := by
  intro fuel node_id bi hi fs ns agent_id
  rcases hown : regenerateOwn node_id agent_id bi hi fs ns with e | ⟨own_ids, bi1, hi1, fs1⟩
  · simp [regenerate_node, hown, Except.toOption]
  · rcases hns : ns node_id with _ | record
    · simp [regenerate_node, hown, hns, Except.toOption]
    · rcases hfold : foldRegen
          (fun c b h f => regenerate_node fuel c true b h f ns agent_id)
          record.children bi1 hi1 fs1 with e2 | ⟨child_ids, bi2, hi2, fs2⟩
      · simp [regenerate_node, hown, hns, hfold, Except.toOption]
      · simp [regenerate_node, hown, hns, hfold, Except.toOption]

/-- GenerationItem of the CLI planner (`src/tooling/cli.rs`): one node to
generate, with the agent, provider and frame type of the plan. -/
structure GenerationItem where
  node_id : NodeID
  path : String
  node_type : NodeType
  agent_id : String
  provider_name : String
  frame_type : String
  force : Bool
deriving DecidableEq, Repr

/-- BFS loop of `collect_subtree_levels` (`src/tooling/cli.rs` lines
2319-2344): pop `(node, depth)` from the front, skip visited nodes, record
the node at its depth, push the children at `depth + 1`; a missing record is
`NodeNotFound`.  `fuel` bounds the loop iterations (the Rust loop terminates
because the visited set is finite). -/
def bfsVisit (ns : NodeStore) : Nat → List (NodeID × Nat) → List NodeID →
    List (NodeID × Nat) → Except ApiError (List (NodeID × Nat))
  | 0, _, _, _ => .error (.StorageError "loop fuel exhausted")
  | _ + 1, [], _, acc => .ok acc
  | fuel + 1, (n, d) :: rest, visited, acc =>
    if n ∈ visited then bfsVisit ns fuel rest visited acc
    else
      match ns n with
      | none => .error (.NodeNotFound n)
      | some record =>
        bfsVisit ns fuel (rest ++ record.children.map (fun c => (c, d + 1)))
          (n :: visited) (acc ++ [(n, d)])

/-- Descending insertion on depth keys. -/
def insertDesc (d : Nat) : List Nat → List Nat
  | [] => [d]
  | e :: es => if e ≤ d then d :: e :: es else e :: insertDesc d es

/-- Descending sort of the distinct depth keys (the
`ordered_depths.sort_by(|(a, _), (b, _)| b.cmp(a))` of `src/tooling/cli.rs`
line 2341). -/
def sortDesc (l : List Nat) : List Nat :=
  l.foldr insertDesc []

/-- Grouping of the visit list into levels keyed by depth, deepest first
(the `levels: HashMap<usize, Vec<NodeID>>` of `collect_subtree_levels`,
read out sorted by descending depth; within a level the nodes keep their
visit order, as `Vec::push` does). -/
def groupVisitsByDepth (visits : List (NodeID × Nat)) : List (Nat × List NodeID) :=
  (sortDesc ((visits.map (fun v => v.2)).dedup)).map fun d =>
    (d, (visits.filter (fun v => v.2 = d)).map fun v => v.1)

/-- collect_subtree_levels (`src/tooling/cli.rs` lines 2319-2344), with the
depth keys retained. -/
def collect_subtree_levels (ns : NodeStore) (fuel : Nat) (target : NodeID) :
    Except ApiError (List (Nat × List NodeID)) :=
  (bfsVisit ns fuel [(target, 0)] [] []).map groupVisitsByDepth

/-- Item construction for one level of the recursive branch of
`build_generation_plan` (`src/tooling/cli.rs` lines 2175-2212): fetch each
node's record (missing is `NodeNotFound`), skip the node when `force` is
false and a head for the frame type already exists (`head_reuse`), otherwise
emit a GenerationItem. -/
def levelItems (hi : HeadIndex) (ns : NodeStore) (force : Bool)
    (agent_id provider_name frame_type : String) :
    List NodeID → Except ApiError (List GenerationItem)
  | [] => .ok []
  | n :: rest =>
    match ns n with
    | none => .error (.NodeNotFound n)
    | some record =>
      match levelItems hi ns force agent_id provider_name frame_type rest with
      | .error e => .error e
      | .ok items =>
        if !force && (hi.get_head n frame_type).isSome then
          .ok items
        else
          .ok ({ node_id := n, path := record.path,
                 node_type := record.node_type,
                 agent_id := agent_id, provider_name := provider_name,
                 frame_type := frame_type, force := force } :: items)

/-- Level assembly of the recursive branch of `build_generation_plan`
(`src/tooling/cli.rs` lines 2169-2212): build each depth level's items in
order and drop levels that end up empty (`if !items.is_empty()`); the depth
key is retained for stating the ordering. -/
def planLevelsKeyed (hi : HeadIndex) (ns : NodeStore) (force : Bool)
    (agent_id provider_name frame_type : String) :
    List (Nat × List NodeID) → Except ApiError (List (Nat × List GenerationItem))
  | [] => .ok []
  | (d, nodes) :: rest =>
    match levelItems hi ns force agent_id provider_name frame_type nodes with
    | .error e => .error e
    | .ok items =>
      match planLevelsKeyed hi ns force agent_id provider_name frame_type rest with
      | .error e => .error e
      | .ok plans => .ok (if items.isEmpty then plans else (d, items) :: plans)

lemma mem_insertDesc {x d : Nat} {l : List Nat} :
    x ∈ insertDesc d l ↔ x = d ∨ x ∈ l := by
  induction l with
  | nil => simp [insertDesc]
  | cons e es ih =>
    by_cases he : e ≤ d
    · rw [insertDesc, if_pos he]
      simp
    · rw [insertDesc, if_neg he]
      simp only [List.mem_cons, ih]
      tauto

lemma pairwise_gt_insertDesc {d : Nat} {l : List Nat}
    (hl : l.Pairwise (fun a b => a > b)) (hd : d ∉ l) :
    (insertDesc d l).Pairwise (fun a b => a > b) := by
  induction l with
  | nil => simp [insertDesc]
  | cons e es ih =>
    rcases List.pairwise_cons.mp hl with ⟨he_gt, hes⟩
    have hd_ne : d ≠ e := fun h => hd (h ▸ List.mem_cons_self e es)
    have hd_es : d ∉ es := fun h => hd (List.mem_cons_of_mem e h)
    by_cases he : e ≤ d
    · rw [insertDesc, if_pos he]
      refine List.pairwise_cons.mpr ⟨fun x hx => ?_, hl⟩
      rcases List.mem_cons.mp hx with rfl | hx2
      · omega
      · have := he_gt x hx2
        omega
    · rw [insertDesc, if_neg he]
      refine List.pairwise_cons.mpr ⟨fun x hx => ?_, ih hes hd_es⟩
      rcases mem_insertDesc.mp hx with rfl | hx2
      · omega
      · exact he_gt x hx2

lemma mem_sortDesc {x : Nat} {l : List Nat} : x ∈ sortDesc l ↔ x ∈ l := by
  induction l with
  | nil => simp [sortDesc]
  | cons e es ih =>
    show x ∈ insertDesc e (sortDesc es) ↔ _
    rw [mem_insertDesc, ih]
    simp

lemma pairwise_gt_sortDesc (l : List Nat) (h : l.Nodup) :
    (sortDesc l).Pairwise (fun a b => a > b) := by
  induction l with
  | nil => simp [sortDesc]
  | cons d es ih =>
    rcases List.nodup_cons.mp h with ⟨hd, hes⟩
    show (insertDesc d (sortDesc es)).Pairwise _
    exact pairwise_gt_insertDesc (ih hes) (fun hm => hd (mem_sortDesc.mp hm))

lemma groupVisitsByDepth_deepest_first (visits : List (NodeID × Nat)) :
    (groupVisitsByDepth visits).Pairwise (fun a b => b.1 < a.1) := by
  unfold groupVisitsByDepth
  rw [List.pairwise_map]
  have h := pairwise_gt_sortDesc ((visits.map fun v => v.2).dedup)
    (List.nodup_dedup _)
  exact h.imp (fun hab => hab)

lemma groupVisitsByDepth_mem (visits : List (NodeID × Nat)) (d : Nat)
    (nodes : List NodeID) (hmem : (d, nodes) ∈ groupVisitsByDepth visits)
    (n : NodeID) : n ∈ nodes ↔ (n, d) ∈ visits := by
  unfold groupVisitsByDepth at hmem
  rcases List.mem_map.mp hmem with ⟨d2, _, heq⟩
  have hd : d = d2 := (congrArg Prod.fst heq).symm
  subst hd
  have hn : nodes = (visits.filter (fun v => v.2 = d)).map fun v => v.1 :=
    (congrArg Prod.snd heq).symm
  rw [hn]
  constructor
  · intro hnx
    rcases List.mem_map.mp hnx with ⟨v, hv, hveq⟩
    rcases List.mem_filter.mp hv with ⟨hvv, hvd⟩
    have hvd2 : v.2 = d := of_decide_eq_true hvd
    obtain ⟨v1, v2⟩ := v
    have hv1 : v1 = n := hveq
    have hv2 : v2 = d := hvd2
    rw [← hv1, ← hv2]
    exact hvv
  · intro hnd
    exact List.mem_map.mpr ⟨(n, d), List.mem_filter.mpr ⟨hnd, by simp⟩, rfl⟩

lemma bfsVisit_acc_prefix (ns : NodeStore) :
    ∀ (fuel : Nat) (q : List (NodeID × Nat)) (visited : List NodeID)
      (acc visits : List (NodeID × Nat)),
      bfsVisit ns fuel q visited acc = .ok visits →
      ∃ rest, visits = acc ++ rest := by
  intro fuel
  induction fuel with
  | zero =>
    intro q visited acc visits h
    rw [bfsVisit] at h
    exact absurd h (by simp)
  | succ fuel ih =>
    intro q visited acc visits h
    cases q with
    | nil =>
      rw [bfsVisit] at h
      injection h with h
      exact ⟨[], by rw [← h]; simp⟩
    | cons hd rest =>
      obtain ⟨n, d⟩ := hd
      rw [bfsVisit] at h
      by_cases hv : n ∈ visited
      · rw [if_pos hv] at h
        exact ih rest visited acc visits h
      · rw [if_neg hv] at h
        rcases hns : ns n with _ | record
        · rw [hns] at h
          exact absurd h (by simp)
        · rw [hns] at h
          obtain ⟨r2, hr2⟩ := ih _ _ _ _ h
          exact ⟨(n, d) :: r2, by rw [hr2]; simp⟩

lemma levelItems_mem (hi : HeadIndex) (ns : NodeStore) (force : Bool)
    (a p ft : String) :
    ∀ (nodes : List NodeID) (items : List GenerationItem),
      levelItems hi ns force a p ft nodes = .ok items →
      ∀ n, (∃ item ∈ items, item.node_id = n) ↔
        (n ∈ nodes ∧ ¬(force = false ∧ (hi.get_head n ft).isSome = true)) := by
  intro nodes
  induction nodes with
  | nil =>
    intro items h n
    rw [levelItems] at h
    injection h with h
    subst h
    simp
  | cons m rest ih =>
    intro items h n
    rw [levelItems] at h
    rcases hns : ns m with _ | record
    · rw [hns] at h
      exact absurd h (by simp)
    · rw [hns] at h
      rcases hrest : levelItems hi ns force a p ft rest with e | items2
      · rw [hrest] at h
        exact absurd h (by simp)
      · rw [hrest] at h
        dsimp only at h
        have ih2 := ih items2 hrest
        by_cases hskip : (!force && (hi.get_head m ft).isSome) = true
        · rw [if_pos hskip] at h
          injection h with h
          subst h
          have hskipP : force = false ∧ (hi.get_head m ft).isSome = true := by
            simpa [Bool.and_eq_true, Bool.not_eq_true'] using hskip
          constructor
          · intro hx
            have h2 := (ih2 n).mp hx
            exact ⟨List.mem_cons_of_mem m h2.1, h2.2⟩
          · rintro ⟨hmem, hns2⟩
            rcases List.mem_cons.mp hmem with rfl | hmem2
            · exact absurd hskipP hns2
            · exact (ih2 n).mpr ⟨hmem2, hns2⟩
        · rw [if_neg hskip] at h
          injection h with h
          subst h
          have hskipP : ¬(force = false ∧ (hi.get_head m ft).isSome = true) := by
            intro hc
            exact hskip (by simp [Bool.and_eq_true, Bool.not_eq_true', hc.1, hc.2])
          constructor
          · rintro ⟨item, hitem, hid⟩
            rcases List.mem_cons.mp hitem with rfl | hmem2
            · have hmn : m = n := hid
              subst hmn
              exact ⟨List.mem_cons_self m rest, hskipP⟩
            · have h2 := (ih2 n).mp ⟨item, hmem2, hid⟩
              exact ⟨List.mem_cons_of_mem m h2.1, h2.2⟩
          · rintro ⟨hmem, hns2⟩
            rcases List.mem_cons.mp hmem with rfl | hmem2
            · exact ⟨_, List.mem_cons_self _ _, rfl⟩
            · obtain ⟨item, hmemi, hid⟩ := (ih2 n).mpr ⟨hmem2, hns2⟩
              exact ⟨item, List.mem_cons_of_mem _ hmemi, hid⟩

lemma planLevelsKeyed_mem (hi : HeadIndex) (ns : NodeStore) (force : Bool)
    (a p ft : String) :
    ∀ (dl : List (Nat × List NodeID)) (pl : List (Nat × List GenerationItem)),
      planLevelsKeyed hi ns force a p ft dl = .ok pl →
      ∀ n, (∃ l ∈ pl, ∃ item ∈ l.2, item.node_id = n) ↔
        ((∃ l ∈ dl, n ∈ l.2) ∧
          ¬(force = false ∧ (hi.get_head n ft).isSome = true)) := by
  intro dl
  induction dl with
  | nil =>
    intro pl h n
    rw [planLevelsKeyed] at h
    injection h with h
    subst h
    simp
  | cons dn rest ih =>
    obtain ⟨d, nodes⟩ := dn
    intro pl h n
    rw [planLevelsKeyed] at h
    rcases hitems : levelItems hi ns force a p ft nodes with e | items
    · rw [hitems] at h
      exact absurd h (by simp)
    · rw [hitems] at h
      rcases hrest : planLevelsKeyed hi ns force a p ft rest with e | plRest
      · rw [hrest] at h
        exact absurd h (by simp)
      · rw [hrest] at h
        dsimp only at h
        injection h with h
        subst h
        have hlev := levelItems_mem hi ns force a p ft nodes items hitems n
        have ihn := ih plRest hrest n
        by_cases hemp : items.isEmpty
        · rw [if_pos hemp]
          have hitems_nil : items = [] := by
            cases items with
            | nil => rfl
            | cons x xs => simp [List.isEmpty] at hemp
          subst hitems_nil
          have hnone : ¬ (n ∈ nodes ∧
              ¬(force = false ∧ (hi.get_head n ft).isSome = true)) := by
            rw [← hlev]
            rintro ⟨item, hitem, _⟩
            exact absurd hitem (List.not_mem_nil item)
          rw [ihn]
          constructor
          · rintro ⟨⟨l, hl, hnl⟩, hs⟩
            exact ⟨⟨l, List.mem_cons_of_mem _ hl, hnl⟩, hs⟩
          · rintro ⟨⟨l, hl, hnl⟩, hs⟩
            rcases List.mem_cons.mp hl with rfl | hl2
            · exact absurd ⟨hnl, hs⟩ hnone
            · exact ⟨⟨l, hl2, hnl⟩, hs⟩
        · rw [if_neg hemp]
          constructor
          · rintro ⟨l, hl, hitem⟩
            rcases List.mem_cons.mp hl with rfl | hl2
            · have h2 := hlev.mp hitem
              exact ⟨⟨(d, nodes), List.mem_cons_self _ _, h2.1⟩, h2.2⟩
            · obtain ⟨⟨l2, hl2b, hnl2⟩, hs⟩ := ihn.mp ⟨l, hl2, hitem⟩
              exact ⟨⟨l2, List.mem_cons_of_mem _ hl2b, hnl2⟩, hs⟩
          · rintro ⟨⟨l, hl, hnl⟩, hs⟩
            rcases List.mem_cons.mp hl with rfl | hl2
            · exact ⟨(d, items), List.mem_cons_self _ _, hlev.mpr ⟨hnl, hs⟩⟩
            · obtain ⟨l2, hl2b, hitem⟩ := ihn.mpr ⟨⟨l, hl2, hnl⟩, hs⟩
              exact ⟨l2, List.mem_cons_of_mem _ hl2b, hitem⟩

/-- C8: a recursive generation plan's keyed levels are ordered deepest first;
each level keyed `d` holds exactly the nodes the BFS from the target visits
at depth `d` (the target itself at depth 0); and a node of the collected
subtree is omitted from the plan exactly when `force` is false and a head for
the requested frame type already exists at that node. -/
theorem generation_plan_deepest_first_and_skip :
    (∀ (ns : NodeStore) (fuel : Nat) (target : NodeID)
        (dl : List (Nat × List NodeID)),
      collect_subtree_levels ns fuel target = .ok dl →
      dl.Pairwise (fun a b => b.1 < a.1)) ∧
    (∀ (ns : NodeStore) (fuel : Nat) (target : NodeID)
        (visits : List (NodeID × Nat)) (dl : List (Nat × List NodeID)),
      bfsVisit ns fuel [(target, 0)] [] [] = .ok visits →
      collect_subtree_levels ns fuel target = .ok dl →
      ∀ d nodes, (d, nodes) ∈ dl → ∀ n, n ∈ nodes ↔ (n, d) ∈ visits) ∧
    (∀ (ns : NodeStore) (fuel : Nat) (target : NodeID)
        (visits : List (NodeID × Nat)),
      bfsVisit ns (fuel + 1) [(target, 0)] [] [] = .ok visits →
      (target, 0) ∈ visits) ∧
    (∀ (hi : HeadIndex) (ns : NodeStore) (force : Bool) (a p ft : String)
        (dl : List (Nat × List NodeID)) (pl : List (Nat × List GenerationItem))
        (n : NodeID),
      planLevelsKeyed hi ns force a p ft dl = .ok pl →
      ((∃ l ∈ pl, ∃ item ∈ l.2, item.node_id = n) ↔
        ((∃ l ∈ dl, n ∈ l.2) ∧
          ¬(force = false ∧ (hi.get_head n ft).isSome = true)))) := by
  refine ⟨?_, ?_, ?_, ?_⟩
  · intro ns fuel target dl hcol
    unfold collect_subtree_levels at hcol
    rcases hbfs : bfsVisit ns fuel [(target, 0)] [] [] with e | visits
    · rw [hbfs] at hcol
      exact absurd hcol (by simp [Except.map])
    · rw [hbfs] at hcol
      have : groupVisitsByDepth visits = dl := by
        simpa [Except.map] using hcol
      rw [← this]
      exact groupVisitsByDepth_deepest_first visits
  · intro ns fuel target visits dl hbfs hcol d nodes hdl n
    unfold collect_subtree_levels at hcol
    rw [hbfs] at hcol
    have : groupVisitsByDepth visits = dl := by
      simpa [Except.map] using hcol
    exact groupVisitsByDepth_mem visits d nodes (this ▸ hdl) n
  · intro ns fuel target visits h
    rw [bfsVisit] at h
    rw [if_neg (List.not_mem_nil target)] at h
    rcases hns : ns target with _ | record
    · rw [hns] at h
      exact absurd h (by simp)
    · rw [hns] at h
      dsimp only at h
      obtain ⟨rest, hrest⟩ := bfsVisit_acc_prefix ns fuel _ _ _ _ h
      rw [hrest]
      simp
  · intro hi ns force a p ft dl pl n hplan
    exact planLevelsKeyed_mem hi ns force a p ft dl pl hplan n

end Meld
